import Mathlib

/-!
Shallow embedding of `syzygy_tables_info/views.py` from the
syzygy-tables.info repository, together with models of the pieces of the
result-classification core that the views consume (move classifier,
position status resolver, statistics aggregator).  Numeric values that the
Python code holds in floats are embedded as rationals; division by 1024 is
exact on binary floats, so the embedding is faithful on the inputs used in
the theorems below.
-/

namespace SyzygyTables

/-! ### Byte-quantity formatter (views.py, `kib`) -/

/-- Round a rational to the nearest integer with ties going to the even
integer, the rounding Python uses when formatting a float with one
fractional digit at an exactly representable tie. -/
def roundHalfEven (q : ℚ) : ℤ :=
  if Int.fract q = 1/2 then
    (if Even ⌊q⌋ then ⌊q⌋ else ⌊q⌋ + 1)
  else
    round q

/-- Render a rational with exactly one fractional digit, as the two format
strings used by `kib` in views.py.  Both behave identically: the minimum
field width of 3 in the first variant is always met, because even the
shortest possible output has three characters, so no padding is added. -/
def fmt1 (q : ℚ) : String :=
  let n : ℤ := roundHalfEven (q * 10)
  let m : ℕ := n.natAbs
  let s : String := toString (m / 10) ++ "." ++ toString (m % 10)
  if q < 0 then "-" ++ s else s

/-- The unit list iterated by `kib` in views.py. -/
def kibUnits : List String := ["KiB", "MiB", "GiB", "TiB", "PiB", "EiB", "ZiB"]

/-- The loop of `kib` in views.py: for each unit in turn, if the absolute
value of the remaining number is below 1024, format it with that unit;
otherwise divide by 1024 and continue.  When the unit list is exhausted the
number is formatted with the bare suffix Yi, with no magnitude test. -/
def kibLoop : List String → ℚ → String
  | [], num => fmt1 num ++ " " ++ "Yi"
  | unit :: units, num =>
      if |num| < 1024 then fmt1 num ++ " " ++ unit
      else kibLoop units (num / 1024)

/-- views.py `kib`. -/
def kib (num : ℚ) : String := kibLoop kibUnits num

/-! ### FEN links (views.py, `fen_url` and the inline link builders) -/

/-- The character substitution performed by the Python call
replacing each space with an underscore. -/
def spaceToUnderscore (c : Char) : Char := if c = ' ' then '_' else c

/-- Replace every space of a string by an underscore; the single-character
replace call of views.py, expressed as a character-wise map on the
underlying character list. -/
def replaceSpaces (s : String) : String := ⟨s.data.map spaceToUnderscore⟩

/-- views.py `fen_url`. -/
def fen_url (fen : String) : String := "/?fen=" ++ replaceSpaces fen

/-- The inline position-link builder used by `metrics` in views.py
(`example_board` and `example_link`): the EPD with spaces replaced, then a
literal move-counter suffix. -/
def example_link (epd : String) : String := "/?fen=" ++ replaceSpaces epd ++ "_0_1"

/-- The eight hardcoded position links of the selected-positions section of
the homepage in views.py, as they appear literally in the source. -/
def homepageLinks : List String :=
  ["/?fen=8/8/8/8/8/8/2Rk4/1K6_b_-_-_0_1",
   "/?fen=8/8/8/6B1/8/8/4k3/1K5N_b_-_-_0_1",
   "/?fen=K7/N7/k7/8/3p4/8/N7/8_w_-_-_0_1",
   "/?fen=6N1/5KR1/2n5/8/8/8/2n5/1k6_w_-_-_0_1",
   "/?fen=QN4n1/6r1/3k4/8/b2K4/8/8/8_b_-_-_0_1",
   "/?fen=8/6B1/8/8/B7/8/K1pk4/8_b_-_-_0_1",
   "/?fen=k7/2QR4/8/8/8/4N3/2r4Q/1K6_b_-_-_0_1",
   "/?fen=6B1/3B4/5R2/6q1/P7/1k6/8/3K4_b_-_-_0_1"]

/-- The FEN strings of the eight selected positions, in the same order. -/
def homepageFens : List String :=
  ["8/8/8/8/8/8/2Rk4/1K6 b - - 0 1",
   "8/8/8/6B1/8/8/4k3/1K5N b - - 0 1",
   "K7/N7/k7/8/3p4/8/N7/8 w - - 0 1",
   "6N1/5KR1/2n5/8/8/8/2n5/1k6 w - - 0 1",
   "QN4n1/6r1/3k4/8/b2K4/8/8/8 b - - 0 1",
   "8/6B1/8/8/B7/8/K1pk4/8 b - - 0 1",
   "k7/2QR4/8/8/8/4N3/2r4Q/1K6 b - - 0 1",
   "6B1/3B4/5R2/6q1/P7/1k6/8/3K4 b - - 0 1"]

/-! ### Probe output and move classification -/

/-- Five-valued win/draw/loss value of a tablebase probe (spec ProbeResult);
the API layer producing it is not among the provided sources. -/
inductive Wdl
  | win
  | cursedWin
  | draw
  | blessedLoss
  | loss
deriving DecidableEq, Repr

/-- The six move categories rendered by `xhr_probe` in views.py. -/
inductive Category
  | winning
  | cursed
  | drawing
  | blessed
  | losing
  | unknown
deriving DecidableEq, Repr

/-- Modelled from the spec: the Move Classifier category assignment; the
classifier itself lives in the repository layer that builds the `Render`
record, which is not among the provided sources - views.py only consumes
its six move lists.  A move with no probe data is `unknown`; otherwise the
category follows the five-valued WDL. -/
def classify : Option Wdl → Category
  | none => .unknown
  | some .win => .winning
  | some .cursedWin => .cursed
  | some .draw => .drawing
  | some .blessedLoss => .blessed
  | some .loss => .losing

/-- A legal move together with its optional probe value. -/
structure ProbedMove where
  uci : String
  wdl : Option Wdl
deriving DecidableEq, Repr

/-- Modelled from the spec: the category move list builder - the list of
moves assigned a given category, in the order the rules collaborator
enumerates them (the classifier does not re-sort). -/
def movesIn (cat : Category) (moves : List ProbedMove) : List ProbedMove :=
  moves.filter fun m => classify m.wdl = cat

/-! ### Position status resolution -/

/-- Resolved status of a position (spec PositionStatus). -/
inductive Status
  | illegal
  | insufficientMaterial
  | checkmate
  | stalemate
  | win
  | draw
  | loss
  | cursedWin
  | blessedLoss
  | unknown
deriving DecidableEq, Repr

/-- The inputs of the Position Status Resolver: the facts supplied by the
rules collaborator plus the probed legal moves. -/
structure Position where
  isLegal : Bool
  insufficientMaterial : Bool
  inCheck : Bool
  moves : List ProbedMove
deriving Repr

/-- Ordering of WDL values, best first for the side to move. -/
def wdlRank : Wdl → ℕ
  | .win => 4
  | .cursedWin => 3
  | .draw => 2
  | .blessedLoss => 1
  | .loss => 0

/-- Best available WDL value among the probed moves, `none` when no move
has tablebase data. -/
def bestWdl (l : List Wdl) : Option Wdl :=
  l.foldr
    (fun w acc =>
      match acc with
      | none => some w
      | some v => if wdlRank v < wdlRank w then some w else some v)
    none

/-- Modelled from the spec: the Position Status Resolver - priority order
illegal, insufficient material, checkmate/stalemate, then the status
derived from the best WDL value among the probed moves, with `unknown` when
no move has data.  The second component is the frustrated flag, raised in
the branches where the best value is only reachable past the fifty-move
threshold.  The resolver itself is not among the provided sources; views.py
only consumes the resulting fields. -/
def resolve (p : Position) : Status × Bool :=
  if !p.isLegal then (.illegal, false)
  else if p.insufficientMaterial then (.insufficientMaterial, false)
  else if p.moves.isEmpty then (if p.inCheck then (.checkmate, false) else (.stalemate, false))
  else
    match bestWdl (p.moves.filterMap (·.wdl)) with
    | none => (.unknown, false)
    | some .win => (.win, false)
    | some .cursedWin => (.cursedWin, true)
    | some .draw => (.draw, false)
    | some .blessedLoss => (.blessedLoss, true)
    | some .loss => (.loss, false)

/-! ### Render records consumed by `xhr_probe` (views.py) -/

/-- Side colors as used by the `winning_side` field. -/
inductive Color
  | white
  | black
deriving DecidableEq, Repr

/-- The CSS class derived from the winning side in the status heading of
`xhr_probe`, built in views.py by appending a suffix to the color name. -/
def colorWinClass : Color → String
  | .white => "white-win"
  | .black => "black-win"

/-- One rendered move as consumed by the `move` helper of `xhr_probe`. -/
structure RenderMove where
  san : String
  uci : String
  fen : String
  dtm : Option ℤ
  badge : String
deriving DecidableEq, Repr

/-- views.py `xhr_probe.move`: the DTM badge is emitted iff the `dtm` field
is truthy in the Python sense, that is, not absent and not zero. -/
def dtmBadge (m : RenderMove) : Option String :=
  match m.dtm with
  | none => none
  | some d => if d = 0 then none else some ("DTM " ++ toString d)

/-- Modelled from the spec: the API layer that builds a `RenderMove` fills
its `dtm` field only when the category is neither drawing nor unknown;
that layer is not among the provided sources. -/
def setDtm (cat : Category) (dtz : Option ℤ) : Option ℤ :=
  if cat = .drawing ∨ cat = .unknown then none else dtz

/-- The fields of the `Render` record that the `xhr_probe` view reads for
the status heading and the info block. -/
structure Render where
  illegal : Bool
  insufficientMaterial : Bool
  unknownMoves : List RenderMove
  blessedLoss : Bool
  cursedWin : Bool
  frustrated : Bool
  winningSide : Option Color
deriving Repr

/-- The informational messages of the `#info` block of `xhr_probe`. -/
inductive InfoMsg
  | notLegal
  | drawnByMaterial
  | unknownInfo
  | blessedLossMsg
  | cursedWinMsg
deriving DecidableEq, Repr

/-- views.py `xhr_probe` info block: the chained conditional expression
selecting at most one informational message, in source order - illegal,
insufficient material, unknown moves present, blessed loss, cursed win. -/
def infoMessage (r : Render) : Option InfoMsg :=
  if r.illegal then some .notLegal
  else if r.insufficientMaterial then some .drawnByMaterial
  else if r.unknownMoves ≠ [] then some .unknownInfo
  else if r.blessedLoss then some .blessedLossMsg
  else if r.cursedWin then some .cursedWinMsg
  else none

/-- views.py `xhr_probe`: the block with the DTZ-mainline download link and
the external analysis link is emitted iff the position is legal. -/
def metaLinksShown (r : Render) : Bool := !r.illegal

/-- views.py `xhr_probe`: the CSS classes of the status heading; a
winning-side class when a winning side is set, and the frustrated class
when the frustrated flag is set (falsy entries are dropped). -/
def statusClasses (r : Render) : List String :=
  (match r.winningSide with
   | none => []
   | some c => [colorWinClass c]) ++
  (if r.frustrated then ["frustrated"] else [])

/-! ### Statistics (views.py `section_stats` and the aggregation model) -/

/-- Python-style rounding of a rational to one decimal digit. -/
def round1 (q : ℚ) : ℚ := (roundHalfEven (q * 10) : ℚ) / 10

/-- Modelled from the spec: the percentage computation of the Statistics
Aggregator - a bucket count over the total, as a percentage rounded to one
decimal, with every percentage 0 when the total is 0 and no division
attempted.  The aggregator is not among the provided sources; views.py
only displays the resulting fields. -/
def pct (count total : ℕ) : ℚ :=
  if total = 0 then 0 else round1 ((count : ℚ) / (total : ℚ) * 100)

/-- Raw per-endgame counts of the five outcome buckets. -/
structure RawCounts where
  white : ℕ
  cursed : ℕ
  draws : ℕ
  blessed : ℕ
  black : ℕ
deriving DecidableEq, Repr

/-- Modelled from the spec: the five percentage values produced by the
Statistics Aggregator from the raw counts and the total. -/
def aggregatePcts (c : RawCounts) (total : ℕ) : ℚ × ℚ × ℚ × ℚ × ℚ :=
  (pct c.white total, pct c.cursed total, pct c.draws total,
   pct c.blessed total, pct c.black total)

/-- The fields of the per-endgame stats record read by `section_stats`. -/
structure RenderStats where
  white : ℕ
  cursed : ℕ
  draws : ℕ
  blessed : ℕ
  black : ℕ
deriving DecidableEq, Repr

/-- The five outcome buckets of the per-endgame statistics list. -/
inductive Bucket
  | whiteWins
  | frustratedWhiteWins
  | draws
  | frustratedBlackWins
  | blackWins
deriving DecidableEq, Repr

/-- The raw count backing each bucket. -/
def bucketCount (s : RenderStats) : Bucket → ℕ
  | .whiteWins => s.white
  | .frustratedWhiteWins => s.cursed
  | .draws => s.draws
  | .frustratedBlackWins => s.blessed
  | .blackWins => s.black

/-- views.py `section_stats`: the emitted bucket entries of the statistics
list, in source order; each of the five conditional divs is emitted iff its
raw count is truthy, that is, nonzero. -/
def statsBuckets (s : RenderStats) : List Bucket :=
  (if s.white ≠ 0 then [Bucket.whiteWins] else []) ++
  (if s.cursed ≠ 0 then [Bucket.frustratedWhiteWins] else []) ++
  (if s.draws ≠ 0 then [Bucket.draws] else []) ++
  (if s.blessed ≠ 0 then [Bucket.frustratedBlackWins] else []) ++
  (if s.black ≠ 0 then [Bucket.blackWins] else [])

/-- One histogram row as consumed by `section_stats`: the length of a
compressed run of empty rows (zero for an active row), the bar width in
percent, the highlight flag, the raw position count, and the ply index. -/
structure HistRow where
  empty : ℕ
  width : ℚ
  active : Bool
  num : ℕ
  ply : ℕ
deriving DecidableEq, Repr

/-- The two mutually exclusive rendered forms of a histogram row. -/
inductive RowForm
  | skip (title : String)
  | bar (width : ℚ) (active : Bool)
deriving DecidableEq, Repr

/-- views.py `section_stats` histogram: a row renders as the skip marker
with its title iff its `empty` field is truthy, that is, nonzero; otherwise
as a bar of the given width and highlight flag. -/
def renderRow (row : HistRow) : RowForm :=
  if row.empty ≠ 0 then .skip (toString row.empty ++ " empty rows skipped")
  else .bar row.width row.active

/-! ### Auxiliary lemmas -/

lemma roundHalfEven_intCast (n : ℤ) : roundHalfEven (n : ℚ) = n := by
  unfold roundHalfEven
  rw [Int.fract_intCast]
  norm_num [round_intCast]

lemma fmt1_eval (q : ℚ) (k : ℕ) (hq : ¬ q < 0) (h : q * 10 = (k : ℚ)) :
    fmt1 q = toString (k / 10) ++ "." ++ toString (k % 10) := by
  unfold fmt1
  rw [h]
  have h2 : ((k : ℚ)) = (((k : ℤ)) : ℚ) := by push_cast; rfl
  rw [h2, roundHalfEven_intCast]
  simp [hq]

lemma kibLoop_nil (num : ℚ) : kibLoop [] num = fmt1 num ++ " " ++ "Yi" := rfl

lemma kibLoop_stop (u : String) (us : List String) (num : ℚ) (h : |num| < 1024) :
    kibLoop (u :: us) num = fmt1 num ++ " " ++ u := by
  simp [kibLoop, h]

lemma kibLoop_step (u : String) (us : List String) (num : ℚ) (h : 1024 ≤ |num|) :
    kibLoop (u :: us) num = kibLoop us (num / 1024) := by
  simp [kibLoop, not_lt.mpr h]

lemma abs_lt_1024 (a : ℚ) (h0 : 0 ≤ a) (h : a < 1024) : |a| < 1024 := by
  rw [abs_of_nonneg h0]; exact h

lemma abs_ge_1024 (a : ℚ) (h : 1024 ≤ a) : 1024 ≤ |a| := by
  rw [abs_of_nonneg (le_trans (by norm_num) h)]; exact h

lemma abs_div_1024 (num : ℚ) : |num / 1024| = |num| / 1024 := by
  rw [abs_div]
  norm_num

/-- Full characterization of the `kib` loop over an arbitrary unit list:
the first unit whose scale brings the magnitude below 1024 is used, and
when the whole list is exhausted the value is divided once more per unit
and rendered with the bare Yi suffix, unconditionally. -/
lemma kibLoop_spec (us : List String) (num : ℚ) :
    (∀ k : ℕ, ∀ hk : k < us.length,
       (∀ j, j < k → 1024 ^ (j + 1) ≤ |num|) → |num| < 1024 ^ (k + 1) →
       kibLoop us num = fmt1 (num / 1024 ^ k) ++ " " ++ us.get ⟨k, hk⟩)
    ∧ (1024 ^ us.length ≤ |num| →
       kibLoop us num = fmt1 (num / 1024 ^ us.length) ++ " " ++ "Yi") := by
  induction us generalizing num with
  | nil =>
      constructor
      · intro k hk
        exact absurd hk (Nat.not_lt_zero k)
      · intro _
        rw [kibLoop_nil]
        norm_num
  | cons u us ih =>
      constructor
      · intro k hk hbig hsmall
        match k with
        | 0 =>
            have h0 : |num| < 1024 := by simpa using hsmall
            rw [kibLoop_stop u us num h0, pow_zero, div_one]
            rfl
        | k + 1 =>
            have hge : 1024 ≤ |num| := by simpa using hbig 0 (Nat.succ_pos k)
            rw [kibLoop_step u us num hge]
            have hbig2 : ∀ j, j < k → 1024 ^ (j + 1) ≤ |num / 1024| := by
              intro j hj
              rw [abs_div_1024, le_div_iff₀ (by norm_num : (0:ℚ) < 1024)]
              calc (1024:ℚ) ^ (j + 1) * 1024 = 1024 ^ (j + 2) := by ring
                _ ≤ |num| := hbig (j + 1) (by omega)
            have hsmall2 : |num / 1024| < 1024 ^ (k + 1) := by
              rw [abs_div_1024, div_lt_iff₀ (by norm_num : (0:ℚ) < 1024)]
              calc |num| < 1024 ^ (k + 2) := hsmall
                _ = 1024 ^ (k + 1) * 1024 := by ring
            have := (ih (num / 1024)).1 k (by simpa using hk) hbig2 hsmall2
            rw [this, div_div, ← pow_succ']
            rfl
      · intro h
        have hge : 1024 ≤ |num| := by
          refine le_trans ?_ h
          calc (1024:ℚ) = 1024 ^ 1 := (pow_one _).symm
            _ ≤ 1024 ^ (u :: us).length := by
                apply pow_le_pow_right₀ (by norm_num)
                simp
        rw [kibLoop_step u us num hge]
        have hbig : 1024 ^ us.length ≤ |num / 1024| := by
          rw [abs_div_1024, le_div_iff₀ (by norm_num : (0:ℚ) < 1024)]
          calc (1024:ℚ) ^ us.length * 1024 = 1024 ^ (us.length + 1) := by ring
            _ ≤ |num| := by simpa using h
        have := (ih (num / 1024)).2 hbig
        rw [this, div_div, ← pow_succ']
        rfl

/-! ### Claim theorems -/

/-- C1, counterexample: at the input 1024 to the seventh power, `kib`
returns the string with the bare suffix Yi, not the unit name YiB that the
claimed eight-unit sequence with its magnitude test would produce. -/
theorem kib_yib_mismatch :
    kib ((1024 : ℚ) ^ 7) = "1.0 Yi" ∧ kib ((1024 : ℚ) ^ 7) ≠ "1.0 YiB" := by
  have h : kib ((1024 : ℚ) ^ 7) = "1.0 Yi" := by
    unfold kib kibUnits
    rw [kibLoop_step _ _ _ (abs_ge_1024 _ (by norm_num))]
    rw [kibLoop_step _ _ _ (abs_ge_1024 _ (by norm_num))]
    rw [kibLoop_step _ _ _ (abs_ge_1024 _ (by norm_num))]
    rw [kibLoop_step _ _ _ (abs_ge_1024 _ (by norm_num))]
    rw [kibLoop_step _ _ _ (abs_ge_1024 _ (by norm_num))]
    rw [kibLoop_step _ _ _ (abs_ge_1024 _ (by norm_num))]
    rw [kibLoop_step _ _ _ (abs_ge_1024 _ (by norm_num))]
    rw [kibLoop_nil]
    rw [fmt1_eval _ 10 (by norm_num) (by norm_num)]
    rfl
  exact ⟨h, by rw [h]; decide⟩

/-- C1, amended: `kib` repeatedly divides by 1024 while selecting the unit
from the seven-unit sequence KiB through ZiB, returns at the first unit
where the absolute value of the remaining magnitude is below 1024 rendering
the value with exactly one fractional digit followed by that unit name;
when the magnitude is still at least 1024 to the seventh power, the value
is divided once per unit and rendered unconditionally with the bare suffix
Yi, with no further magnitude test. -/
theorem kib_amended_spec (num : ℚ) :
    (∀ k : ℕ, ∀ hk : k < 7,
       (∀ j, j < k → 1024 ^ (j + 1) ≤ |num|) → |num| < 1024 ^ (k + 1) →
       kib num = fmt1 (num / 1024 ^ k) ++ " " ++ kibUnits.get ⟨k, hk⟩)
    ∧ (1024 ^ 7 ≤ |num| → kib num = fmt1 (num / 1024 ^ 7) ++ " " ++ "Yi") :=
  kibLoop_spec kibUnits num

/-- Witness for the amended C1 theorem at the concrete input 2048, which
selects the second unit. -/
theorem kib_amended_spec_witness : kib 2048 = "2.0 MiB" := by
  have h := (kib_amended_spec 2048).1 1 (by norm_num)
    (by
      intro j hj
      obtain rfl : j = 0 := by omega
      rw [abs_of_nonneg (by norm_num : (0:ℚ) ≤ 2048)]
      norm_num)
    (by
      rw [abs_of_nonneg (by norm_num : (0:ℚ) ≤ 2048)]
      norm_num)
  rw [h, fmt1_eval (2048 / 1024 ^ 1) 20 (by norm_num) (by norm_num)]
  rfl

/-- C2: the byte formatter satisfies the stated unit boundaries - 1024
formats as one MiB, 1023.9 stays in KiB, and 0 formats as zero KiB. -/
theorem kib_unit_boundaries :
    kib 1024 = "1.0 MiB" ∧ kib (10239 / 10) = "1023.9 KiB" ∧ kib 0 = "0.0 KiB" := by
  refine ⟨?_, ?_, ?_⟩
  · unfold kib kibUnits
    rw [kibLoop_step _ _ _ (abs_ge_1024 _ (by norm_num))]
    rw [kibLoop_stop _ _ _ (abs_lt_1024 _ (by norm_num) (by norm_num))]
    rw [fmt1_eval (1024 / 1024) 10 (by norm_num) (by norm_num)]
    rfl
  · unfold kib kibUnits
    rw [kibLoop_stop _ _ _ (abs_lt_1024 _ (by norm_num) (by norm_num))]
    rw [fmt1_eval (10239 / 10) 10239 (by norm_num) (by norm_num)]
    rfl
  · unfold kib kibUnits
    rw [kibLoop_stop _ _ _ (abs_lt_1024 _ (by norm_num) (by norm_num))]
    rw [fmt1_eval 0 0 (by norm_num) (by norm_num)]
    rfl

/-- C3: a DTM badge is produced only when the distance value was supplied
and the category is neither drawing nor unknown, and a supplied distance of
zero is falsy, so the badge is omitted. -/
theorem dtm_badge_policy :
    (∀ (cat : Category) (dtz : Option ℤ) (san uci fen badge s : String),
        dtmBadge ⟨san, uci, fen, setDtm cat dtz, badge⟩ = some s →
        dtz ≠ none ∧ cat ≠ Category.drawing ∧ cat ≠ Category.unknown)
    ∧ (∀ m : RenderMove, m.dtm = some 0 → dtmBadge m = none) := by
  constructor
  · intro cat dtz san uci fen badge s h
    by_cases hcat : cat = Category.drawing ∨ cat = Category.unknown
    · simp [dtmBadge, setDtm, hcat] at h
    · cases dtz with
      | none => simp [dtmBadge, setDtm, hcat] at h
      | some d =>
          push_neg at hcat
          exact ⟨by simp, hcat.1, hcat.2⟩
  · intro m h
    simp [dtmBadge, h]

/-- Witness for C3 at a winning move carrying distance 5, and at a move
carrying distance 0. -/
theorem dtm_badge_policy_witness :
    ((some (5:ℤ) ≠ (none : Option ℤ)) ∧ Category.winning ≠ Category.drawing
        ∧ Category.winning ≠ Category.unknown)
    ∧ dtmBadge ⟨"Kb2", "b1b2", "8/8/8/8/8/8/1k6/1K6 b - - 0 1", some 0, "win"⟩ = none := by
  constructor
  · exact dtm_badge_policy.1 Category.winning (some 5) "Kb2" "b1b2"
      "8/8/8/8/8/8/1k6/1K6 b - - 0 1" "win" "DTM 5" (by decide)
  · exact dtm_badge_policy.2 _ rfl

/-- C4: the info block selects exactly one message by priority - an illegal
position yields only the not-legal message and suppresses the download and
analysis links; otherwise insufficient material yields the drawn-by-material
message regardless of any tablebase data; otherwise unknown moves, blessed
loss, and cursed win are considered in that order; illegality is an
ordinary rendered value of the total function, never an exception. -/
theorem info_message_priority (r : Render) :
    (r.illegal = true → infoMessage r = some InfoMsg.notLegal ∧ metaLinksShown r = false)
    ∧ (r.illegal = false → r.insufficientMaterial = true →
        infoMessage r = some InfoMsg.drawnByMaterial)
    ∧ (r.illegal = false → r.insufficientMaterial = false → r.unknownMoves ≠ [] →
        infoMessage r = some InfoMsg.unknownInfo)
    ∧ (r.illegal = false → r.insufficientMaterial = false → r.unknownMoves = [] →
        r.blessedLoss = true → infoMessage r = some InfoMsg.blessedLossMsg)
    ∧ (r.illegal = false → r.insufficientMaterial = false → r.unknownMoves = [] →
        r.blessedLoss = false → r.cursedWin = true → infoMessage r = some InfoMsg.cursedWinMsg)
    ∧ (r.illegal = false → r.insufficientMaterial = false → r.unknownMoves = [] →
        r.blessedLoss = false → r.cursedWin = false → infoMessage r = none) := by
  refine ⟨?_, ?_, ?_, ?_, ?_, ?_⟩ <;>
    intro h1 <;>
    simp_all [infoMessage, metaLinksShown]

/-- Witness for C4 at a concrete illegal render record. -/
theorem info_message_priority_witness :
    infoMessage ⟨true, false, [], false, false, false, none⟩ = some InfoMsg.notLegal
    ∧ metaLinksShown ⟨true, false, [], false, false, false, none⟩ = false :=
  (info_message_priority ⟨true, false, [], false, false, false, none⟩).1 rfl

/-- C5: the frustrated flag of the resolved status is set exactly when the
status is cursed-win or blessed-loss, and the rendered status heading
carries the frustrated class exactly when the frustrated flag of the render
record is set. -/
theorem frustrated_flag_spec (p : Position) (r : Render) :
    ((resolve p).2 = true ↔ (resolve p).1 = Status.cursedWin ∨ (resolve p).1 = Status.blessedLoss)
    ∧ ("frustrated" ∈ statusClasses r ↔ r.frustrated = true) := by
  constructor
  · unfold resolve
    split_ifs <;> try simp
    rcases hbw : bestWdl (p.moves.filterMap (·.wdl)) with _ | w
    · simp [hbw]
    · cases w <;> simp [hbw]
  · unfold statusClasses
    rcases hws : r.winningSide with _ | c
    · cases hf : r.frustrated <;> simp
    · cases c <;> cases hf : r.frustrated <;> simp [colorWinClass]

/-- Witness for C5 at a position resolving to a cursed win and a render
record with the frustrated flag set. -/
theorem frustrated_flag_spec_witness :
    (resolve ⟨true, false, false, [⟨"a1b1", some Wdl.cursedWin⟩]⟩).2 = true
    ∧ "frustrated" ∈ statusClasses ⟨false, false, [], false, false, true, some Color.white⟩ := by
  constructor
  · exact (frustrated_flag_spec ⟨true, false, false, [⟨"a1b1", some Wdl.cursedWin⟩]⟩
      ⟨false, false, [], false, false, true, some Color.white⟩).1.mpr (Or.inl (by decide))
  · exact (frustrated_flag_spec ⟨true, false, false, [⟨"a1b1", some Wdl.cursedWin⟩]⟩
      ⟨false, false, [], false, false, true, some Color.white⟩).2.mpr rfl

/-- C6: every legal move is assigned exactly one of the six categories, and
the six category move lists partition the legal move set - the lengths add
up to the whole and each move belongs to exactly one list. -/
theorem move_lists_partition (moves : List ProbedMove) :
    ((movesIn Category.winning moves).length + (movesIn Category.unknown moves).length
      + (movesIn Category.cursed moves).length + (movesIn Category.drawing moves).length
      + (movesIn Category.blessed moves).length + (movesIn Category.losing moves).length
      = moves.length)
    ∧ ∀ m ∈ moves, ∃! cat : Category, m ∈ movesIn cat moves := by
  constructor
  · induction moves with
    | nil => simp [movesIn]
    | cons m ms ih =>
        cases h : classify m.wdl <;>
          simp [movesIn, List.filter_cons, h] at ih ⊢ <;> omega
  · intro m hm
    refine ⟨classify m.wdl, ?_, ?_⟩
    · simp [movesIn, List.mem_filter, hm]
    · intro c hc
      simp [movesIn, List.mem_filter] at hc
      exact hc.2.symm

/-- Witness for C6 at a concrete two-move list with one probed and one
unprobed move. -/
theorem move_lists_partition_witness :
    ((movesIn Category.winning [⟨"e2e4", some Wdl.win⟩, ⟨"d2d4", none⟩]).length
      + (movesIn Category.unknown [⟨"e2e4", some Wdl.win⟩, ⟨"d2d4", none⟩]).length
      + (movesIn Category.cursed [⟨"e2e4", some Wdl.win⟩, ⟨"d2d4", none⟩]).length
      + (movesIn Category.drawing [⟨"e2e4", some Wdl.win⟩, ⟨"d2d4", none⟩]).length
      + (movesIn Category.blessed [⟨"e2e4", some Wdl.win⟩, ⟨"d2d4", none⟩]).length
      + (movesIn Category.losing [⟨"e2e4", some Wdl.win⟩, ⟨"d2d4", none⟩]).length
      = 2)
    ∧ (∃! cat : Category, (⟨"e2e4", some Wdl.win⟩ : ProbedMove)
        ∈ movesIn cat [⟨"e2e4", some Wdl.win⟩, ⟨"d2d4", none⟩]) := by
  have h := move_lists_partition [⟨"e2e4", some Wdl.win⟩, ⟨"d2d4", none⟩]
  exact ⟨h.1, h.2 ⟨"e2e4", some Wdl.win⟩ (by simp)⟩

/-- C7: with a total of zero every percentage is zero with no division
performed, and with a nonzero total each percentage is the count over the
total times one hundred, rounded to one decimal digit. -/
theorem aggregate_pcts_spec :
    (∀ c : RawCounts, aggregatePcts c 0 = (0, 0, 0, 0, 0))
    ∧ (∀ (c : RawCounts) (total : ℕ), total ≠ 0 →
        aggregatePcts c total =
          (round1 ((c.white : ℚ) / (total : ℚ) * 100),
           round1 ((c.cursed : ℚ) / (total : ℚ) * 100),
           round1 ((c.draws : ℚ) / (total : ℚ) * 100),
           round1 ((c.blessed : ℚ) / (total : ℚ) * 100),
           round1 ((c.black : ℚ) / (total : ℚ) * 100))) := by
  constructor
  · intro c
    simp [aggregatePcts, pct]
  · intro c total h
    simp [aggregatePcts, pct, h]

/-- Witness for C7 at concrete counts with total 4. -/
theorem aggregate_pcts_spec_witness :
    aggregatePcts ⟨1, 0, 2, 0, 1⟩ 4 =
      (round1 ((1 : ℚ) / 4 * 100), round1 ((0 : ℚ) / 4 * 100), round1 ((2 : ℚ) / 4 * 100),
       round1 ((0 : ℚ) / 4 * 100), round1 ((1 : ℚ) / 4 * 100)) := by
  have h := aggregate_pcts_spec.2 ⟨1, 0, 2, 0, 1⟩ 4 (by norm_num)
  simpa using h

/-- C8: a bucket of the per-endgame statistics list is emitted exactly when
its raw count is nonzero; a zero count omits the bucket entirely. -/
theorem stats_bucket_emitted_iff (s : RenderStats) (b : Bucket) :
    b ∈ statsBuckets s ↔ bucketCount s b ≠ 0 := by
  cases b <;> simp [statsBuckets, bucketCount, List.mem_append]

/-- Witness for C8: a record whose only nonzero count is the draw bucket
emits that bucket. -/
theorem stats_bucket_emitted_iff_witness :
    Bucket.draws ∈ statsBuckets ⟨0, 0, 5, 0, 0⟩ :=
  (stats_bucket_emitted_iff ⟨0, 0, 5, 0, 0⟩ Bucket.draws).mpr (by decide)

/-- C9: a histogram row renders in exactly one of two forms decided solely
by the truthiness of its empty field - a nonzero empty count yields the
skip marker with its title, an empty count of zero yields a bar of the
recorded width, so an empty-run row of length zero would render as a bar. -/
theorem histogram_row_forms (row : HistRow) :
    (row.empty ≠ 0 → renderRow row = RowForm.skip (toString row.empty ++ " empty rows skipped"))
    ∧ (row.empty = 0 → renderRow row = RowForm.bar row.width row.active)
    ∧ ((∃ t, renderRow row = RowForm.skip t) ↔ row.empty ≠ 0) := by
  unfold renderRow
  split_ifs with h <;> simp [h]

/-- Witness for C9 at a row skipping three empty plies and at an active
bar row. -/
theorem histogram_row_forms_witness :
    renderRow ⟨3, 0, false, 0, 0⟩ = RowForm.skip "3 empty rows skipped"
    ∧ renderRow ⟨0, 55, true, 9, 12⟩ = RowForm.bar 55 true := by
  constructor
  · exact (histogram_row_forms ⟨3, 0, false, 0, 0⟩).1 (by decide)
  · exact (histogram_row_forms ⟨0, 55, true, 9, 12⟩).2.1 rfl

/-- C10: fen_url deterministically prepends the query prefix and replaces
every space of the FEN by an underscore; the position links built inline
elsewhere in the module are values of fen_url as well - the metrics links
factor through fen_url applied to the EPD with the move counters appended,
and each of the eight hardcoded homepage position links equals fen_url of
its FEN. -/
theorem fen_url_links :
    (∀ fen : String, (fen_url fen).data = "/?fen=".data ++ fen.data.map spaceToUnderscore)
    ∧ (∀ epd : String, example_link epd = fen_url (epd ++ " 0 1"))
    ∧ homepageLinks = homepageFens.map fen_url := by
  refine ⟨?_, ?_, ?_⟩
  · intro fen
    simp [fen_url, replaceSpaces, String.data_append]
  · intro epd
    apply String.ext
    simp [example_link, fen_url, replaceSpaces, String.data_append, spaceToUnderscore]
  · decide

end SyzygyTables
